import Mathlib

/-!
Verification of `filter_profiler_results.py`.

The script loads a pstats profiling report (a mapping from a call-site key
`(filename, line_number, symbol)` to a tuple `(nc, cc, tt, ct, callers)`,
where `callers` maps caller call-site keys to 4-tuples of timings), removes
every entry whose key's filename matches one of the exclusion patterns, at
the top level and inside each retained entry's `callers` mapping, and dumps
the reduced mapping to stdout.

Exclusion patterns are built with `re.compile(fnmatch.translate(glob))` and
tested with `filter_re.match(filename)`.  `fnmatch.translate` produces a
regular expression of the shape `(?s:...)\Z`, so the match is anchored at
both ends of the filename, `*` becomes `.*` (matching any characters,
including `/` and newlines), `?` becomes `.`, and `[...]` becomes a regex
character class; all other characters are escaped and match literally.
We embed that semantics directly as a tokenizer (`translateGo`, mirroring
the single pass `fnmatch.translate` makes over the pattern) followed by a
token matcher (`matchTokens`, mirroring the anchored regex match).

Python dicts are embedded as association lists in insertion order; the
timing scalars `tt`/`ct` are floats in Python but are never inspected or
combined by the script (they are copied verbatim), so they are represented
by integers without loss of generality for every property proved here.
-/

/-- Call-site key of a pstats entry: `(filename, line_number, symbol)`. -/
structure StatsKey where
  filename : String
  line_number : Int
  symbol : String
deriving DecidableEq, Repr

/-- Timing 4-tuple stored for each caller inside a `callers` mapping.
The script copies these values verbatim and never inspects them. -/
abbrev TimingTuple := Int × Int × Int × Int

/-- Value of a top-level pstats entry: `(nc, cc, tt, ct, callers)`. -/
structure StatsEntry where
  nc : Int
  cc : Int
  tt : Int
  ct : Int
  callers : List (StatsKey × TimingTuple)
deriving DecidableEq, Repr

/-- A pstats report: the `stats.stats` dict, in insertion order. -/
abbrev StatsDict := List (StatsKey × StatsEntry)

/-! ### Glob translation, mirroring `fnmatch.translate`

`fnmatch.translate` walks the pattern once.  `*` becomes `.*`, `?` becomes
`.`, and on `[` it scans for the closing `]` (an optional leading `!` means
negation, and a `]` right after `[` or `[!` belongs to the class content);
when no closing `]` exists the `[` is escaped and matches literally.  The
result is wrapped so that matching is anchored at both ends and `.`
matches every character. -/

/-- Tokens of the regular expression produced by `fnmatch.translate`. -/
inductive GlobToken where
  /-- the `.*` produced for `*` -/
  | star : GlobToken
  /-- the `.` produced for `?` -/
  | anyChar : GlobToken
  /-- an escaped character, matching literally -/
  | lit : Char → GlobToken
  /-- a character class `[...]` (negated when `neg` is true) -/
  | cls : Bool → List Char → GlobToken
deriving DecidableEq, Repr

/-- Scan up to the closing `]` of a character class.  Returns the content
before the `]` and the remainder of the pattern after it, or `none` when
the class is not closed. -/
def scanClassContent : List Char → Option (List Char × List Char)
  | [] => none
  | ']' :: p => some ([], p)
  | c :: p =>
    match scanClassContent p with
    | none => none
    | some (content, rest) => some (c :: content, rest)

/-- Parse a character class from the pattern suffix that follows a `[`:
an optional `!` negates the class, and a `]` placed first belongs to the
content, exactly as in `fnmatch.translate`'s scan for the closing `]`. -/
def splitClass : List Char → Option (Bool × List Char × List Char)
  | '!' :: ']' :: p =>
    match scanClassContent p with
    | none => none
    | some (content, rest) => some (true, ']' :: content, rest)
  | '!' :: p =>
    match scanClassContent p with
    | none => none
    | some (content, rest) => some (true, content, rest)
  | ']' :: p =>
    match scanClassContent p with
    | none => none
    | some (content, rest) => some (false, ']' :: content, rest)
  | p =>
    match scanClassContent p with
    | none => none
    | some (content, rest) => some (false, content, rest)

/-- One pass of `fnmatch.translate` over the pattern.  The `fuel` argument
only makes the recursion structural: each step consumes at least one
pattern character and one unit of fuel, so `fuel = pattern.length` is
always enough (see `translateGlob`). -/
def translateGo : Nat → List Char → List GlobToken
  | _, [] => []
  | 0, _ :: _ => []
  | fuel + 1, c :: p =>
    if c = '*' then GlobToken.star :: translateGo fuel p
    else if c = '?' then GlobToken.anyChar :: translateGo fuel p
    else if c = '[' then
      match splitClass p with
      | none => GlobToken.lit '[' :: translateGo fuel p
      | some (neg, content, rest) => GlobToken.cls neg content :: translateGo fuel rest
    else GlobToken.lit c :: translateGo fuel p

/-- Translation of a whole glob pattern, as in `fnmatch.translate`. -/
def translateGlob (pat : List Char) : List GlobToken :=
  translateGo pat.length pat

/-- Match of one character against the content of a regex character class:
`x-y` spans the code-point range (a `-` at the start or end is literal),
every other character matches itself. -/
def classContentMatches : List Char → Char → Bool
  | [], _ => false
  | [x], c => x = c
  | x :: '-' :: [], c => x = c || '-' = c
  | x :: '-' :: y :: rest, c => (x ≤ c && c ≤ y) || classContentMatches rest c
  | x :: rest, c => x = c || classContentMatches rest c

/-- Match of one character against a possibly negated character class. -/
def classMatches (neg : Bool) (content : List Char) (c : Char) : Bool :=
  if neg then ! classContentMatches content c else classContentMatches content c

/-- Try a predicate on every suffix of the string: this is how the regex
`.*` (followed by the remaining tokens) searches for a split point. -/
def matchAnySuffix (m : List Char → Bool) : List Char → Bool
  | [] => m []
  | c :: s => m (c :: s) || matchAnySuffix m s

/-- Anchored match of a token list against a string: the whole string must
be consumed (the `\Z` anchor emitted by `fnmatch.translate`), `star`
matches any sequence of characters (the regex runs in DOTALL mode), and
`anyChar` matches any single character. -/
def matchTokens : List GlobToken → List Char → Bool
  | [] => fun s => s.isEmpty
  | GlobToken.star :: ts => fun s => matchAnySuffix (matchTokens ts) s
  | GlobToken.anyChar :: ts => fun s =>
    match s with
    | [] => false
    | _ :: s' => matchTokens ts s'
  | GlobToken.lit c :: ts => fun s =>
    match s with
    | [] => false
    | c' :: s' => c' = c && matchTokens ts s'
  | GlobToken.cls neg content :: ts => fun s =>
    match s with
    | [] => false
    | c' :: s' => classMatches neg content c' && matchTokens ts s'

/-- Semantics of `re.compile(fnmatch.translate(pat)).match(s)` on the
character lists of the pattern and the string. -/
def globMatch (pat s : List Char) : Bool :=
  matchTokens (translateGlob pat) s

/-! ### The two built-in garbage patterns

With `--remove-garbage` the script prepends two hand-written compiled
regular expressions, tested with `.match` (anchored at the start only, `.`
not matching newlines since no DOTALL flag is given). -/

/-- Consume an exact literal sequence from the front of a string,
returning the remainder. -/
def dropExact : List Char → List Char → Option (List Char)
  | [], s => some s
  | _ :: _, [] => none
  | c :: cs, c' :: s => if c' = c then dropExact cs s else none

/-- Remainders possible after an optional single-character regex item
(`X?`): either nothing is consumed, or one character satisfying the test
is consumed. -/
def afterOpt (test : Char → Bool) (s : List Char) : List (List Char) :=
  s :: (match s with
        | c :: rest => if test c then [rest] else []
        | [] => [])

/-- Match of the regex fragment `\d?\.?\d?/` at the front of a string.
Digits are modelled as ASCII digits, which is what appears in Python
installation paths (Python's `\d` would also accept other Unicode decimal
digits). -/
def pyVersionSlash (s : List Char) : Bool :=
  (afterOpt Char.isDigit s).any fun s1 =>
    (afterOpt (fun c => c = '.') s1).any fun s2 =>
      (afterOpt Char.isDigit s2).any fun s3 =>
        match s3 with
        | '/' :: _ => true
        | _ => false

/-- Match of the regex fragment `lib[\\/]python\d?\.?\d?/` at the front of
a string (the trailing `.*` of the pattern always succeeds and is
dropped). -/
def libPythonAt (s : List Char) : Bool :=
  match dropExact "lib".data s with
  | none => false
  | some s1 =>
    match s1 with
    | [] => false
    | c :: s2 =>
      if c = '\\' || c = '/' then
        match dropExact "python".data s2 with
        | none => false
        | some s3 => pyVersionSlash s3
      else false

/-- Semantics of `re.compile(r'.*lib[\\/]python\d?\.?\d?/.*').match(s)`:
some split point reachable through non-newline characters is followed by
the `lib[\\/]python\d?\.?\d?/` fragment. -/
def stdlibGarbageMatch : List Char → Bool
  | [] => libPythonAt []
  | c :: s => libPythonAt (c :: s) || (c ≠ '\n' && stdlibGarbageMatch s)

/-- Match of the regex fragment `.*>` at the front of a string: a `>` is
reachable through non-newline characters. -/
def frozenTail : List Char → Bool
  | [] => false
  | c :: s => c = '>' || (c ≠ '\n' && frozenTail s)

/-- Semantics of `re.compile(r'~|<string>|<frozen .*>').match(s)`. -/
def syntheticGarbageMatch (s : List Char) : Bool :=
  (match s with | '~' :: _ => true | _ => false) ||
  (dropExact "<string>".data s).isSome ||
  (match dropExact "<frozen ".data s with
   | some rest => frozenTail rest
   | none => false)

/-! ### Compiled filter patterns and the filtering pass -/

/-- A compiled entry of the `filename_filters` list in `main`: either a
user glob compiled through `fnmatch.translate`, or one of the two built-in
regexes prepended by `--remove-garbage`. -/
inductive FilterPattern where
  /-- `re.compile(fnmatch.translate(g))` for a user-supplied glob `g` -/
  | glob : String → FilterPattern
  /-- `re.compile(r'.*lib[\\/]python\d?\.?\d?/.*')` -/
  | stdlibGarbage : FilterPattern
  /-- `re.compile(r'~|<string>|<frozen .*>')` -/
  | syntheticGarbage : FilterPattern
deriving DecidableEq, Repr

/-- Semantics of `filter_re.match(filename)` for a compiled pattern. -/
def patternMatch : FilterPattern → String → Bool
  | FilterPattern.glob g, fn => globMatch g.data fn.data
  | FilterPattern.stdlibGarbage, fn => stdlibGarbageMatch fn.data
  | FilterPattern.syntheticGarbage, fn => syntheticGarbageMatch fn.data

/-- Embedding of `should_include_stats` (lines 100-106): the key is
destructured into `(filename, line_number, symbol)` and only `filename`
is consulted; the entry is rejected when any filter matches it. -/
def should_include_stats (stats_key : StatsKey) (filename_filters : List FilterPattern) : Bool :=
  let filename := stats_key.filename
  if filename_filters.any (fun filter_re => patternMatch filter_re filename) then
    false
  else
    true

/-- Embedding of the inner dict comprehension of `main` (lines 145-150):
the `callers` mapping restricted to caller keys that pass
`should_include_stats`. -/
def filter_callers (callers : List (StatsKey × TimingTuple))
    (filename_filters : List FilterPattern) : List (StatsKey × TimingTuple) :=
  callers.filter (fun ckv => should_include_stats ckv.1 filename_filters)

/-- Rebuilt value of a retained top-level entry: `nc`, `cc`, `tt`, `ct`
are copied verbatim and `callers` is filtered. -/
def rebuildEntry (entry : StatsEntry) (filename_filters : List FilterPattern) : StatsEntry :=
  { nc := entry.nc, cc := entry.cc, tt := entry.tt, ct := entry.ct,
    callers := filter_callers entry.callers filename_filters }

/-- Embedding of the outer dict comprehension of `main` (lines 144-156):
top-level entries failing `should_include_stats` are dropped, retained
entries keep their four scalars and get a filtered `callers` mapping. -/
def filter_profiler_stats (stats : StatsDict)
    (filename_filters : List FilterPattern) : StatsDict :=
  (stats.filter (fun kv => should_include_stats kv.1 filename_filters)).map
    (fun kv => (kv.1, rebuildEntry kv.2 filename_filters))

/-- Embedding of the filter-list construction in `main` (lines 129-141):
user globs are compiled in order; `--remove-garbage` prepends the two
built-in patterns in front of them. -/
def build_filename_filters (glob_list : List String) (remove_garbage : Bool) :
    List FilterPattern :=
  let filename_filters := glob_list.map FilterPattern.glob
  if remove_garbage then
    [FilterPattern.stdlibGarbage, FilterPattern.syntheticGarbage] ++ filename_filters
  else
    filename_filters

/-! ### `print_included_filenames` and the whole of `main` -/

/-- Removal of adjacent duplicates, which is what taking the group heads
of `itertools.groupby` does on a sorted sequence. -/
def dedupAdjacent {α : Type} [DecidableEq α] : List α → List α
  | [] => []
  | [x] => [x]
  | x :: y :: rest =>
    if x = y then dedupAdjacent (y :: rest) else x :: dedupAdjacent (y :: rest)

/-- The `sorted(...)` call of `print_included_filenames` (lines 109-118):
the filenames of the keys of the filtered dict, in ascending string
order. -/
def sortedFilenames (filtered_stats : StatsDict) : List String :=
  List.insertionSort (fun a b => a ≤ b) (filtered_stats.map (fun kv => kv.1.filename))

/-- Embedding of `print_included_filenames` (lines 109-122): the list of
lines written to stderr, one filename per line. -/
def print_included_filenames (filtered_stats : StatsDict) : List String :=
  dedupAdjacent (sortedFilenames filtered_stats)

/-- Observable output of a successful run of `main`: the filtered dict
dumped to stdout by `marshal.dump`, and the lines written to stderr. -/
structure MainOutput where
  report : StatsDict
  stderr_lines : List String
deriving DecidableEq, Repr

/-- Embedding of `main` (lines 125-161) after the profile file has been
loaded: build the filters, filter the stats, optionally print the included
filenames to stderr, dump the filtered dict to stdout. -/
def run_main (stats : StatsDict) (glob_list : List String)
    (remove_garbage print_included : Bool) : MainOutput :=
  let filename_filters := build_filename_filters glob_list remove_garbage
  let filtered_stats := filter_profiler_stats stats filename_filters
  { report := filtered_stats,
    stderr_lines :=
      if print_included then print_included_filenames filtered_stats else [] }

/-! ### Fallible model of `main`

Two library calls of `main` can raise: `re.compile(fnmatch.translate(g))`
on line 130 (the script passes each glob through unvalidated) and
`Stats(args.profile_filename)` on line 143 (missing or malformed profile
file).  An uncaught Python exception terminates the process before
`marshal.dump` runs, so `main` is modelled in `Except`: an `error` result
means no report was written.  The two fallible library calls are
parameters of the model. -/

/-- Error raised by a library call (for example `re.error` or `IOError`). -/
abbrev PyError := String

/-- Embedding of `list(re.compile(fnmatch.translate(g)) for g in globs)`
(lines 129-133) with a fallible compiler: the globs are compiled from left
to right and the first exception propagates. -/
def compile_all (compile_glob : String → Except PyError FilterPattern) :
    List String → Except PyError (List FilterPattern)
  | [] => Except.ok []
  | g :: gs =>
    match compile_glob g with
    | Except.error e => Except.error e
    | Except.ok p =>
      match compile_all compile_glob gs with
      | Except.error e => Except.error e
      | Except.ok ps => Except.ok (p :: ps)

/-- Fallible embedding of `main` (lines 125-161): pattern compilation runs
first (line 129), then the profile file is loaded (line 143), then the
report is produced; an exception at either step aborts the run with no
report written. -/
def main_except (compile_glob : String → Except PyError FilterPattern)
    (load_stats : Except PyError StatsDict) (glob_list : List String)
    (remove_garbage print_included : Bool) : Except PyError MainOutput :=
  match compile_all compile_glob glob_list with
  | Except.error e => Except.error e
  | Except.ok user_filters =>
    let filename_filters :=
      if remove_garbage then
        [FilterPattern.stdlibGarbage, FilterPattern.syntheticGarbage] ++ user_filters
      else
        user_filters
    match load_stats with
    | Except.error e => Except.error e
    | Except.ok stats =>
      let filtered_stats := filter_profiler_stats stats filename_filters
      Except.ok
        { report := filtered_stats,
          stderr_lines :=
            if print_included then print_included_filenames filtered_stats else [] }

/-! ### Concrete sample data used by the witnesses -/

/-- Sample key whose filename is excluded by the glob `foo/bar`. -/
def keyFooBar : StatsKey := { filename := "foo/bar", line_number := 10, symbol := "run" }

/-- Sample key retained by the glob `foo/bar`. -/
def keyKeep : StatsKey := { filename := "app.py", line_number := 3, symbol := "main" }

/-- Second sample key retained by the glob `foo/bar`. -/
def keyKeep2 : StatsKey := { filename := "util.py", line_number := 7, symbol := "helper" }

/-- Sample timing tuple for a caller record. -/
def timing0 : TimingTuple := (1, 1, 2, 3)

/-- Sample entry with no callers. -/
def entryA : StatsEntry := { nc := 1, cc := 1, tt := 2, ct := 3, callers := [] }

/-- Sample entry with one retained and one excluded caller. -/
def entryB : StatsEntry :=
  { nc := 2, cc := 2, tt := 4, ct := 6,
    callers := [(keyKeep2, timing0), (keyFooBar, timing0)] }

/-- Sample report with one excluded and one retained entry. -/
def stats0 : StatsDict := [(keyFooBar, entryA), (keyKeep, entryB)]

/-- Sample filter list with the single user glob `foo/bar`. -/
def filters0 : List FilterPattern := [FilterPattern.glob "foo/bar"]

/-- Sample report none of whose entries matches the glob `foo/bar`. -/
def stats1 : StatsDict := [(keyKeep, entryA)]

/-- Sample fallible glob compiler that rejects the glob `bad`. -/
def compileDemo (g : String) : Except PyError FilterPattern :=
  if g = "bad" then Except.error "re.error" else Except.ok (FilterPattern.glob g)

/-- Sample key whose filename contains `foo/bar` without being equal to it. -/
def keyBazFooBar : StatsKey :=
  { filename := "baz/foo/bar", line_number := 1, symbol := "f" }

/-- Sample key whose filename is `foo/` ++ `one/two` ++ `/bar`. -/
def keyFooStarBar : StatsKey :=
  { filename := "foo/one/two/bar", line_number := 1, symbol := "f" }

/-! ### Helper lemmas -/


theorem should_include_stats_eq (key : StatsKey) (filename_filters : List FilterPattern) :
    should_include_stats key filename_filters =
      ! filename_filters.any (fun filter_re => patternMatch filter_re key.filename) := by
  unfold should_include_stats
  cases hx : filename_filters.any (fun filter_re => patternMatch filter_re key.filename) with
  | false => simp [hx]
  | true => simp [hx]

theorem should_include_stats_false_iff (key : StatsKey)
    (filename_filters : List FilterPattern) :
    should_include_stats key filename_filters = false ↔
      ∃ fp ∈ filename_filters, patternMatch fp key.filename = true := by
  rw [should_include_stats_eq]
  simp [List.any_eq_true]

theorem should_include_stats_true_iff (key : StatsKey)
    (filename_filters : List FilterPattern) :
    should_include_stats key filename_filters = true ↔
      ∀ fp ∈ filename_filters, patternMatch fp key.filename = false := by
  rw [should_include_stats_eq]
  simp [List.any_eq_false]

theorem matchAnySuffix_of_here (m : List Char → Bool) (s : List Char)
    (h : m s = true) : matchAnySuffix m s = true := by
  cases s with
  | nil => exact h
  | cons c s' => simp [matchAnySuffix, h]

theorem matchAnySuffix_append (m : List Char → Bool) (t u : List Char)
    (h : matchAnySuffix m u = true) : matchAnySuffix m (t ++ u) = true := by
  induction t with
  | nil => simpa using h
  | cons c t' ih => simp [matchAnySuffix, ih]

theorem matchTokens_lits (p : List Char) : ∀ s : List Char,
    matchTokens (p.map GlobToken.lit) s = true ↔ s = p := by
  induction p with
  | nil =>
    intro s
    cases s <;> simp [matchTokens, List.isEmpty]
  | cons c p' ih =>
    intro s
    cases s with
    | nil => simp [matchTokens]
    | cons c' s' => simp [matchTokens, ih s']

theorem translateGo_wildcard_free (p : List Char)
    (h : ∀ c ∈ p, c ≠ '*' ∧ c ≠ '?' ∧ c ≠ '[') :
    translateGo p.length p = p.map GlobToken.lit := by
  induction p with
  | nil => rfl
  | cons c p' ih =>
    have hc := h c (List.mem_cons_self c p')
    have hrest : ∀ c2 ∈ p', c2 ≠ '*' ∧ c2 ≠ '?' ∧ c2 ≠ '[' :=
      fun c2 hm => h c2 (List.mem_cons_of_mem c hm)
    simp [translateGo, hc.1, hc.2.1, hc.2.2, ih hrest]

theorem mem_dedupAdjacent {α : Type} [DecidableEq α] (l : List α) (a : α) :
    a ∈ dedupAdjacent l ↔ a ∈ l := by
  induction l with
  | nil => simp [dedupAdjacent]
  | cons x rest ih =>
    cases rest with
    | nil => simp [dedupAdjacent]
    | cons y t =>
      by_cases hxy : x = y
      · subst hxy
        rw [show dedupAdjacent (x :: x :: t) = dedupAdjacent (x :: t) from by
          simp [dedupAdjacent]]
        rw [ih]
        simp [List.mem_cons]
      · rw [show dedupAdjacent (x :: y :: t) = x :: dedupAdjacent (y :: t) from by
          simp [dedupAdjacent, hxy]]
        simp [List.mem_cons, ih]

theorem dedupAdjacent_pairwise_lt {α : Type} [DecidableEq α] [LinearOrder α] (l : List α)
    (h : l.Pairwise (fun a b => a ≤ b)) :
    (dedupAdjacent l).Pairwise (fun a b => a < b) := by
  induction l with
  | nil => simp [dedupAdjacent]
  | cons x rest ih =>
    cases rest with
    | nil => simp [dedupAdjacent]
    | cons y t =>
      have hx : ∀ b ∈ y :: t, x ≤ b := (List.pairwise_cons.mp h).1
      have hrest : (y :: t).Pairwise (fun a b => a ≤ b) := (List.pairwise_cons.mp h).2
      by_cases hxy : x = y
      · rw [show dedupAdjacent (x :: y :: t) = dedupAdjacent (y :: t) from by
          simp [dedupAdjacent, hxy]]
        exact ih hrest
      · rw [show dedupAdjacent (x :: y :: t) = x :: dedupAdjacent (y :: t) from by
          simp [dedupAdjacent, hxy]]
        refine List.pairwise_cons.mpr ⟨?_, ih hrest⟩
        intro b hb
        have hbmem : b ∈ y :: t := (mem_dedupAdjacent _ _).mp hb
        have hyb : y ≤ b := by
          rcases List.mem_cons.mp hbmem with hb1 | hb2
          · exact le_of_eq hb1.symm
          · exact List.rel_of_pairwise_cons hrest hb2
        exact lt_of_lt_of_le (lt_of_le_of_ne (hx y (List.mem_cons_self y t)) hxy) hyb

theorem compile_all_error_of_mem (compile_glob : String → Except PyError FilterPattern)
    (glob_list : List String) (g : String) (e : PyError)
    (hmem : g ∈ glob_list) (herr : compile_glob g = Except.error e) :
    ∃ e2, compile_all compile_glob glob_list = Except.error e2 := by
  induction glob_list with
  | nil => cases hmem
  | cons g1 gs ih =>
    cases List.mem_cons.mp hmem with
    | inl heq =>
      subst heq
      exact ⟨e, by simp [compile_all, herr]⟩
    | inr hmem2 =>
      cases hcg : compile_glob g1 with
      | error e1 => exact ⟨e1, by simp [compile_all, hcg]⟩
      | ok p =>
        obtain ⟨e2, h2⟩ := ih hmem2
        exact ⟨e2, by simp [compile_all, hcg, h2]⟩

theorem filter_callers_idem (callers : List (StatsKey × TimingTuple))
    (filename_filters : List FilterPattern) :
    filter_callers (filter_callers callers filename_filters) filename_filters =
      filter_callers callers filename_filters := by
  unfold filter_callers
  induction callers with
  | nil => rfl
  | cons kv rest ih =>
    cases h : should_include_stats kv.1 filename_filters with
    | false => simp [List.filter_cons, h, ih]
    | true => simp [List.filter_cons, h, ih]

theorem rebuildEntry_idem (entry : StatsEntry) (filename_filters : List FilterPattern) :
    rebuildEntry (rebuildEntry entry filename_filters) filename_filters =
      rebuildEntry entry filename_filters := by
  simp [rebuildEntry, filter_callers_idem]

theorem mem_filter_profiler_stats (stats : StatsDict)
    (filename_filters : List FilterPattern) (key : StatsKey) (entry2 : StatsEntry) :
    (key, entry2) ∈ filter_profiler_stats stats filename_filters ↔
      ∃ entry, (key, entry) ∈ stats ∧
        should_include_stats key filename_filters = true ∧
        entry2 = rebuildEntry entry filename_filters := by
  unfold filter_profiler_stats
  constructor
  · intro hmem
    obtain ⟨kv, hkvmem, heq⟩ := List.mem_map.mp hmem
    obtain ⟨hkvstats, hinc⟩ := List.mem_filter.mp hkvmem
    have h1 : kv.1 = key := congrArg Prod.fst heq
    have h2 : rebuildEntry kv.2 filename_filters = entry2 := congrArg Prod.snd heq
    refine ⟨kv.2, ?_, ?_, h2.symm⟩
    · rw [← h1]
      simpa using hkvstats
    · rw [← h1]
      exact hinc
  · intro ⟨entry, hmem, hinc, heq⟩
    refine List.mem_map.mpr ⟨(key, entry), List.mem_filter.mpr ⟨hmem, hinc⟩, ?_⟩
    simp [heq]

/-! ### Claim theorems -/

/-- C1: every input entry whose key's filename matches at least one
exclusion pattern is absent from the output mapping at the top level, and
every entry retained at the top level has a nested callers mapping
containing no caller key whose filename matches an exclusion pattern. -/
theorem excluded_entries_absent_and_callers_filtered (stats : StatsDict)
    (filename_filters : List FilterPattern) :
    (∀ key entry fp, fp ∈ filename_filters → patternMatch fp key.filename = true →
      (key, entry) ∉ filter_profiler_stats stats filename_filters) ∧
    (∀ key entry, (key, entry) ∈ filter_profiler_stats stats filename_filters →
      ∀ ck t fp, (ck, t) ∈ entry.callers → fp ∈ filename_filters →
        patternMatch fp ck.filename = false) := by
  constructor
  · intro key entry fp hfp hpm hmem
    obtain ⟨entry0, _, hinc, _⟩ := (mem_filter_profiler_stats _ _ _ _).mp hmem
    have hfalse : should_include_stats key filename_filters = false :=
      (should_include_stats_false_iff _ _).mpr ⟨fp, hfp, hpm⟩
    rw [hinc] at hfalse
    simp at hfalse
  · intro key entry hmem ck t fp hck hfp
    obtain ⟨entry0, _, _, heq⟩ := (mem_filter_profiler_stats _ _ _ _).mp hmem
    subst heq
    have hck2 : (ck, t) ∈
        (rebuildEntry entry0 filename_filters).callers := hck
    simp only [rebuildEntry, filter_callers] at hck2
    have hinc : should_include_stats ck filename_filters = true :=
      (List.mem_filter.mp hck2).2
    exact ((should_include_stats_true_iff _ _).mp hinc) fp hfp

/-- C1 witness: with report `stats0` and the single glob `foo/bar`, the
entry at `keyFooBar` is gone from the output, and the caller `keyKeep2`
retained inside the surviving entry matches no pattern. -/
theorem excluded_entries_absent_and_callers_filtered_witness :
    (keyFooBar, entryA) ∉ filter_profiler_stats stats0 filters0 ∧
    patternMatch (FilterPattern.glob "foo/bar") keyKeep2.filename = false :=
  ⟨(excluded_entries_absent_and_callers_filtered stats0 filters0).1 keyFooBar entryA
      (FilterPattern.glob "foo/bar") (by decide) (by decide),
   (excluded_entries_absent_and_callers_filtered stats0 filters0).2 keyKeep
      (rebuildEntry entryB filters0) (by decide) keyKeep2 timing0
      (FilterPattern.glob "foo/bar") (by decide) (by decide)⟩

/-- C2 counterexample: with input `stats1` (one entry at `app.py`) and
pattern list `filters0` (the glob `foo/bar`), no entry is removed, so the
output's top-level key set equals the input's and is not a strict subset
of it, refuting the claim that the output keys form a strict subset for
every input report and pattern list. -/
theorem filter_output_keys_can_equal_input_keys :
    (filter_profiler_stats stats1 filters0).map Prod.fst = stats1.map Prod.fst ∧
    ¬ ∃ k, k ∈ stats1.map Prod.fst ∧
        k ∉ (filter_profiler_stats stats1 filters0).map Prod.fst := by
  have heq : (filter_profiler_stats stats1 filters0).map Prod.fst =
      stats1.map Prod.fst := by decide
  refine ⟨heq, ?_⟩
  intro ⟨k, hk, hnk⟩
  rw [heq] at hnk
  exact hnk hk

/-- C2 (amended): the set of top-level keys of the output report is a
subset, not necessarily strict, of the set of top-level keys of the input
report. -/
theorem filter_output_keys_subset_of_input (stats : StatsDict)
    (filename_filters : List FilterPattern) (k : StatsKey)
    (h : k ∈ (filter_profiler_stats stats filename_filters).map Prod.fst) :
    k ∈ stats.map Prod.fst := by
  obtain ⟨kv, hkv, hfst⟩ := List.mem_map.mp h
  obtain ⟨entry, hmem, _, _⟩ :=
    (mem_filter_profiler_stats stats filename_filters kv.1 kv.2).mp hkv
  exact List.mem_map.mpr ⟨(kv.1, entry), hmem, hfst⟩

/-- C2 witness: the retained key `keyKeep` of the filtered `stats0` is a
key of the input. -/
theorem filter_output_keys_subset_of_input_witness :
    keyKeep ∈ stats0.map Prod.fst :=
  filter_output_keys_subset_of_input stats0 filters0 keyKeep (by decide)

/-- C3: with `--remove-garbage` the effective filter list is exactly the
two built-in patterns (standard-library paths, synthetic frame names)
prepended ahead of the user-supplied patterns, and every key excluded by
the user patterns alone is still excluded with the flag set. -/
theorem remove_garbage_prepends_two_builtin_filters (glob_list : List String)
    (key : StatsKey) :
    build_filename_filters glob_list true =
      [FilterPattern.stdlibGarbage, FilterPattern.syntheticGarbage] ++
        build_filename_filters glob_list false ∧
    (should_include_stats key (build_filename_filters glob_list false) = false →
      should_include_stats key (build_filename_filters glob_list true) = false) := by
  constructor
  · simp [build_filename_filters]
  · intro h
    obtain ⟨fp, hfp, hpm⟩ := (should_include_stats_false_iff _ _).mp h
    refine (should_include_stats_false_iff _ _).mpr ⟨fp, ?_, hpm⟩
    rw [show build_filename_filters glob_list true =
        [FilterPattern.stdlibGarbage, FilterPattern.syntheticGarbage] ++
          build_filename_filters glob_list false from by simp [build_filename_filters]]
    exact List.mem_append_right _ hfp

/-- C3 witness: for the single user glob `foo/bar`, the flag prepends the
two built-ins, and `keyFooBar`, excluded by the user glob alone, is still
excluded with the flag set. -/
theorem remove_garbage_prepends_two_builtin_filters_witness :
    build_filename_filters ["foo/bar"] true =
      [FilterPattern.stdlibGarbage, FilterPattern.syntheticGarbage] ++
        build_filename_filters ["foo/bar"] false ∧
    should_include_stats keyFooBar (build_filename_filters ["foo/bar"] true) = false :=
  ⟨(remove_garbage_prepends_two_builtin_filters ["foo/bar"] keyFooBar).1,
   (remove_garbage_prepends_two_builtin_filters ["foo/bar"] keyFooBar).2 (by decide)⟩

theorem matchTokens_lit_same (c : Char) (ts : List GlobToken) (u : List Char) :
    matchTokens (GlobToken.lit c :: ts) (c :: u) = matchTokens ts u := by
  simp [matchTokens]

/-- C4: when `--print-included-filenames` is given, the lines written to
stderr are the filenames of the retained top-level entries, deduplicated
and in sorted order (strictly ascending, hence sorted and free of
duplicates), one per line, and the report dumped to stdout is identical
whether or not the flag is given. -/
theorem print_included_filenames_sorted_dedup_and_report_unchanged
    (stats : StatsDict) (glob_list : List String) (remove_garbage : Bool) :
    (run_main stats glob_list remove_garbage true).report =
      (run_main stats glob_list remove_garbage false).report ∧
    (run_main stats glob_list remove_garbage true).stderr_lines.Pairwise
      (fun a b => a < b) ∧
    ∀ fn, fn ∈ (run_main stats glob_list remove_garbage true).stderr_lines ↔
      ∃ kv, kv ∈ (run_main stats glob_list remove_garbage true).report ∧
        kv.1.filename = fn := by
  refine ⟨rfl, ?_, ?_⟩
  · rw [show (run_main stats glob_list remove_garbage true).stderr_lines =
        dedupAdjacent (sortedFilenames (filter_profiler_stats stats
          (build_filename_filters glob_list remove_garbage))) from rfl]
    have hs : (sortedFilenames (filter_profiler_stats stats
        (build_filename_filters glob_list remove_garbage))).Pairwise
        (fun a b => a ≤ b) :=
      List.sorted_insertionSort _ _
    exact dedupAdjacent_pairwise_lt _ hs
  · intro fn
    rw [show (run_main stats glob_list remove_garbage true).stderr_lines =
        dedupAdjacent (sortedFilenames (filter_profiler_stats stats
          (build_filename_filters glob_list remove_garbage))) from rfl]
    rw [mem_dedupAdjacent]
    rw [show sortedFilenames (filter_profiler_stats stats
        (build_filename_filters glob_list remove_garbage)) =
        List.insertionSort (fun a b => a ≤ b)
          ((filter_profiler_stats stats (build_filename_filters glob_list
            remove_garbage)).map (fun kv => kv.1.filename)) from rfl]
    rw [List.Perm.mem_iff (List.perm_insertionSort _ _)]
    rw [show (run_main stats glob_list remove_garbage true).report =
        filter_profiler_stats stats (build_filename_filters glob_list
          remove_garbage) from rfl]
    exact List.mem_map

/-- C5: a user glob containing no wildcard characters (`*`, `?`, `[`) is
translated to a regular expression anchored at both ends, so it excludes
exactly the keys whose filename equals the glob itself. -/
theorem wildcard_free_glob_matches_exactly_itself (g : String) (key : StatsKey)
    (hplain : ∀ c ∈ g.data, c ≠ '*' ∧ c ≠ '?' ∧ c ≠ '[') :
    should_include_stats key [FilterPattern.glob g] = false ↔ key.filename = g := by
  rw [should_include_stats_false_iff]
  constructor
  · intro ⟨fp, hfp, hpm⟩
    have hfpg : fp = FilterPattern.glob g := by simpa using hfp
    subst hfpg
    have hgm : globMatch g.data key.filename.data = true := hpm
    rw [globMatch, translateGlob, translateGo_wildcard_free g.data hplain] at hgm
    exact String.ext ((matchTokens_lits g.data key.filename.data).mp hgm)
  · intro h
    refine ⟨FilterPattern.glob g, by simp, ?_⟩
    show globMatch g.data key.filename.data = true
    rw [globMatch, translateGlob, translateGo_wildcard_free g.data hplain]
    exact (matchTokens_lits g.data key.filename.data).mpr (by rw [h])

/-- C5 witness: the glob `foo/bar` excludes the key whose filename is
`foo/bar` and does not exclude the key whose filename is `baz/foo/bar`. -/
theorem wildcard_free_glob_matches_exactly_itself_witness :
    should_include_stats keyFooBar [FilterPattern.glob "foo/bar"] = false ∧
    should_include_stats keyBazFooBar [FilterPattern.glob "foo/bar"] ≠ false :=
  ⟨(wildcard_free_glob_matches_exactly_itself "foo/bar" keyFooBar (by decide)).mpr rfl,
   fun h => absurd
     ((wildcard_free_glob_matches_exactly_itself "foo/bar" keyBazFooBar
        (by decide)).mp h)
     (by decide)⟩

/-- C6: a `*` in a user glob matches recursively across path separators:
for every string `s` (slashes included), the glob `foo/*/bar` matches the
filename `foo/` ++ `s` ++ `/bar` and the corresponding key is excluded. -/
theorem star_glob_matches_across_separators (s : String) (key : StatsKey)
    (hfn : key.filename = "foo/" ++ s ++ "/bar") :
    patternMatch (FilterPattern.glob "foo/*/bar") key.filename = true ∧
    should_include_stats key [FilterPattern.glob "foo/*/bar"] = false := by
  have hdata : ("foo/" ++ s ++ "/bar").data =
      'f' :: 'o' :: 'o' :: '/' :: (s.data ++ "/bar".data) := by
    rw [String.data_append, String.data_append]
    rw [show "foo/".data = 'f' :: 'o' :: 'o' :: '/' :: [] from rfl]
    simp
  have htok : translateGlob "foo/*/bar".data =
      [GlobToken.lit 'f', GlobToken.lit 'o', GlobToken.lit 'o', GlobToken.lit '/',
       GlobToken.star, GlobToken.lit '/', GlobToken.lit 'b', GlobToken.lit 'a',
       GlobToken.lit 'r'] := by decide
  have hpm : patternMatch (FilterPattern.glob "foo/*/bar") key.filename = true := by
    show globMatch "foo/*/bar".data key.filename.data = true
    rw [hfn, globMatch, htok, hdata]
    rw [matchTokens_lit_same, matchTokens_lit_same, matchTokens_lit_same,
      matchTokens_lit_same]
    show matchAnySuffix (matchTokens [GlobToken.lit '/', GlobToken.lit 'b',
      GlobToken.lit 'a', GlobToken.lit 'r']) (s.data ++ "/bar".data) = true
    apply matchAnySuffix_append
    apply matchAnySuffix_of_here
    decide
  refine ⟨hpm, ?_⟩
  exact (should_include_stats_false_iff _ _).mpr
    ⟨FilterPattern.glob "foo/*/bar", by simp, hpm⟩

/-- C6 witness: the glob `foo/*/bar` matches `foo/one/two/bar`, whose
middle segment contains a path separator, and excludes that key. -/
theorem star_glob_matches_across_separators_witness :
    patternMatch (FilterPattern.glob "foo/*/bar") keyFooStarBar.filename = true ∧
    should_include_stats keyFooStarBar [FilterPattern.glob "foo/*/bar"] = false :=
  star_glob_matches_across_separators "one/two" keyFooStarBar (by decide)

/-- C7: a failing profile-file load (missing or malformed file) or a glob
rejected by pattern compilation propagates as a fatal error: the modelled
`main` returns `Except.error`, never reaching the `marshal.dump` call, so
no output report is written.  Globs are passed to compilation unvalidated,
exactly as in the source. -/
theorem no_report_on_load_or_compile_error
    (compile_glob : String → Except PyError FilterPattern)
    (load_stats : Except PyError StatsDict) (glob_list : List String)
    (remove_garbage print_included : Bool)
    (h : (∃ e, load_stats = Except.error e) ∨
      (∃ g, g ∈ glob_list ∧ ∃ e, compile_glob g = Except.error e)) :
    ∃ e2, main_except compile_glob load_stats glob_list remove_garbage
      print_included = Except.error e2 := by
  cases hca : compile_all compile_glob glob_list with
  | error e1 => exact ⟨e1, by simp [main_except, hca]⟩
  | ok ps =>
    rcases h with ⟨e, hload⟩ | ⟨g, hg, e, hcg⟩
    · exact ⟨e, by simp [main_except, hca, hload]⟩
    · obtain ⟨e2, h2⟩ := compile_all_error_of_mem compile_glob glob_list g e hg hcg
      rw [hca] at h2
      simp at h2

/-- C7 witness: with the sample glob compiler and a failing profile-file
load, the modelled `main` produces an error and no report. -/
theorem no_report_on_load_or_compile_error_witness :
    ∃ e2, main_except compileDemo (Except.error "IOError") ["foo/bar"]
      false false = Except.error e2 :=
  no_report_on_load_or_compile_error compileDemo (Except.error "IOError")
    ["foo/bar"] false false (Or.inl ⟨"IOError", rfl⟩)

/-- C8: every top-level entry retained in the output keeps its four scalar
timing fields (`nc`, `cc`, `tt`, `ct`) exactly equal to those of the
corresponding input entry; only the nested callers mapping may differ (it
is the filtered callers mapping of the input entry). -/
theorem retained_entries_keep_timing_fields (stats : StatsDict)
    (filename_filters : List FilterPattern) (key : StatsKey) (entry2 : StatsEntry)
    (h : (key, entry2) ∈ filter_profiler_stats stats filename_filters) :
    ∃ entry, (key, entry) ∈ stats ∧ entry2.nc = entry.nc ∧ entry2.cc = entry.cc ∧
      entry2.tt = entry.tt ∧ entry2.ct = entry.ct ∧
      entry2.callers = filter_callers entry.callers filename_filters := by
  obtain ⟨entry, hmem, _, heq⟩ := (mem_filter_profiler_stats _ _ _ _).mp h
  subst heq
  exact ⟨entry, hmem, rfl, rfl, rfl, rfl, rfl⟩

/-- C8 witness: the entry retained at `keyKeep` in the filtered `stats0`
keeps the four scalars of `entryB` and carries its filtered callers. -/
theorem retained_entries_keep_timing_fields_witness :
    ∃ entry, (keyKeep, entry) ∈ stats0 ∧
      (rebuildEntry entryB filters0).nc = entry.nc ∧
      (rebuildEntry entryB filters0).cc = entry.cc ∧
      (rebuildEntry entryB filters0).tt = entry.tt ∧
      (rebuildEntry entryB filters0).ct = entry.ct ∧
      (rebuildEntry entryB filters0).callers = filter_callers entry.callers filters0 :=
  retained_entries_keep_timing_fields stats0 filters0 keyKeep
    (rebuildEntry entryB filters0) (by decide)

/-- C9: the inclusion decision depends only on the filename component of a
call-site key: two keys with the same filename but different line numbers
or symbols receive the same decision for every pattern list. -/
theorem inclusion_depends_only_on_filename (fn : String) (l1 l2 : Int)
    (s1 s2 : String) (filename_filters : List FilterPattern) :
    should_include_stats { filename := fn, line_number := l1, symbol := s1 }
        filename_filters =
      should_include_stats { filename := fn, line_number := l2, symbol := s2 }
        filename_filters := rfl

/-- C10: the filtering transformation is idempotent: applying the filter
to its own output with the same pattern list yields that output
unchanged. -/
theorem filter_profiler_stats_idempotent (stats : StatsDict)
    (filename_filters : List FilterPattern) :
    filter_profiler_stats (filter_profiler_stats stats filename_filters)
        filename_filters =
      filter_profiler_stats stats filename_filters := by
  induction stats with
  | nil => rfl
  | cons kv rest ih =>
    cases hkv : should_include_stats kv.1 filename_filters with
    | false =>
      rw [show filter_profiler_stats (kv :: rest) filename_filters =
          filter_profiler_stats rest filename_filters from by
        simp [filter_profiler_stats, List.filter_cons, hkv]]
      exact ih
    | true =>
      have h1 : filter_profiler_stats (kv :: rest) filename_filters =
          (kv.1, rebuildEntry kv.2 filename_filters) ::
            filter_profiler_stats rest filename_filters := by
        simp [filter_profiler_stats, List.filter_cons, hkv]
      rw [h1]
      have h2 : filter_profiler_stats
          ((kv.1, rebuildEntry kv.2 filename_filters) ::
            filter_profiler_stats rest filename_filters) filename_filters =
          (kv.1, rebuildEntry (rebuildEntry kv.2 filename_filters)
            filename_filters) ::
            filter_profiler_stats (filter_profiler_stats rest filename_filters)
              filename_filters := by
        simp [filter_profiler_stats, List.filter_cons, hkv]
      rw [h2, ih, rebuildEntry_idem]
